import Mathlib

/-!
Verification of the snakebite HDFS client core (spotify/snakebite).

This file contains a shallow embedding, in Lean 4, of the parts of
`snakebite/client.py` and `snakebite/channel.py` that the checked claims are
about, together with theorems settling each claim.

Conventions used throughout:
* Python byte strings are modelled as `List Nat` (one `Nat` per byte).
* Python text strings (paths, error messages) are modelled as `List Char`,
  the character sequence underlying a Python `str`; `s.startswith(p)` becomes
  `List.isPrefixOf p s`, `s.endswith(p)` becomes `List.isSuffixOf p s`,
  slicing becomes `List.drop` / `List.dropLast`.
* Python exceptions are modelled by the `PyErr` sum type below, and a function
  that can raise returns `Except PyErr _`.
* Network I/O is modelled by explicit oracles: the data that would arrive on a
  socket is a parameter (a list of bytes, a list of packets, a response
  value), and the outcome of a remote procedure call is a parameter of type
  `Except PyErr _`.
* Generators are modelled by the list of items they yield, paired with how
  they terminate (normally or with an exception).
-/

namespace Snakebite

/-- Exceptions of the Python client, from `snakebite/errors.py` plus plain
`Exception` and `socket.error`/`socket.timeout`.  A `socket.timeout` is a
`socket.error` with the `timeout` flag set. Error message texts are carried
as `List Char`; quoting characters of the originals are elided. -/
inductive PyErr where
  | exception (msg : List Char)
  | requestError (msg : List Char)
  | fileException (msg : List Char)
  | directoryException (msg : List Char)
  | fileNotFound (msg : List Char)
  | fileAlreadyExists (msg : List Char)
  | connectionFailure (msg : List Char)
  | invalidInput (msg : List Char)
  | outOfNN (msg : List Char)
  | socketError (errno : Nat) (timeout : Bool)
  deriving Repr, DecidableEq

/-- Boolean test for `Except` success, used to state claims. -/
def exceptOk {ε α : Type} : Except ε α → Bool
  | .ok _ => true
  | .error _ => false

/-! ## The NameNode RPC channel (`snakebite/channel.py`, class `SocketRpcChannel`) -/

/-- The mutable state of a `SocketRpcChannel` that the claims depend on:
`self.sock` (`None` until the lazy connect, `channel.py:171`) and
`self.call_id` (initialised to `-3`, `channel.py:172`).  The socket object is
abstracted to an opaque handle `Nat`. -/
structure SocketRpcChannel where
  sock : Option Nat
  call_id : Int
  deriving Repr, DecidableEq

/-- `SocketRpcChannel.__init__` (`channel.py:166-187`): no socket yet, and
`call_id = -3` for the connection context. -/
def channelInit : SocketRpcChannel := { sock := none, call_id := -3 }

/-- `create_rpc_request_header` (`channel.py:263-280`): the emitted header
carries the current `call_id`; afterwards the counter becomes `0` if it was
`-3` and is incremented by `1` otherwise.  Returns the emitted call id and
the updated channel. -/
def create_rpc_request_header (s : SocketRpcChannel) : Int × SocketRpcChannel :=
  (s.call_id,
   { s with call_id := if s.call_id = -3 then 0 else s.call_id + 1 })

/-- The call ids placed in the first `n` `RpcRequestHeaderProto` messages
built by a channel starting in state `s`.  Every header sent on the wire —
the connection context (`get_connection`, `channel.py:241`) as well as each
user call (`send_rpc_message`, `channel.py:315`) — is built by
`create_rpc_request_header`, so iterating it yields exactly the emitted
sequence. -/
def emittedCallIds : Nat → SocketRpcChannel → List Int
  | 0, _ => []
  | n + 1, s =>
      let p := create_rpc_request_header s
      p.1 :: emittedCallIds n p.2

/-- Helper: once the counter is a natural number, it just counts up. -/
theorem emittedCallIds_ofNat (n c : Nat) :
    emittedCallIds n { sock := none, call_id := (c : Int) } =
      (List.range n).map (fun (k : Nat) => (c : Int) + (k : Int)) := by
  induction n generalizing c with
  | zero => simp [emittedCallIds]
  | succ n ih =>
      have hne : ((c : Int) = -3) = False := by
        simp only [eq_iff_iff, iff_false]
        omega
      have hc : ((c : Int) + 1) = ((c + 1 : Nat) : Int) := by push_cast; ring
      simp only [emittedCallIds, create_rpc_request_header, hne, if_false, hc, ih,
        List.range_succ_eq_map, List.map_cons, List.map_map]
      rw [List.cons_eq_cons]
      refine ⟨by push_cast; ring, ?_⟩
      apply List.map_congr_left
      intro a _
      simp only [Function.comp_apply]
      push_cast
      ring

/-- C3: on a fresh channel the sequence of call ids placed in successive
`RpcRequestHeaderProto` messages is exactly `-3, 0, 1, 2, ...` (position `0`
is the connection context, position `k ≥ 1` carries `k - 1`), and the
sequence has no repeats. -/
theorem callId_sequence (n : Nat) :
    emittedCallIds n channelInit =
      (List.range n).map (fun (k : Nat) => if k = 0 then (-3 : Int) else (k : Int) - 1) ∧
    (emittedCallIds n channelInit).Nodup := by
  have hmain : emittedCallIds n channelInit =
      (List.range n).map (fun (k : Nat) => if k = 0 then (-3 : Int) else (k : Int) - 1) := by
    cases n with
    | zero => simp [emittedCallIds]
    | succ m =>
        have h0 : emittedCallIds (m + 1) channelInit =
            (-3) :: emittedCallIds m { sock := none, call_id := (0 : Int) } := by
          simp [emittedCallIds, create_rpc_request_header, channelInit]
        have h1 := emittedCallIds_ofNat m 0
        norm_num at h1
        rw [h0, h1, List.range_succ_eq_map]
        simp only [List.map_cons, List.map_map]
        rw [List.cons_eq_cons]
        refine ⟨by norm_num, ?_⟩
        apply List.map_congr_left
        intro a _
        have ha : (a + 1 : Nat) ≠ 0 := Nat.succ_ne_zero a
        simp only [Function.comp_apply, if_neg ha]
        push_cast
        ring
  refine ⟨hmain, ?_⟩
  rw [hmain]
  apply List.Nodup.map_on
  · intro x hx y hy hxy
    rcases Nat.eq_zero_or_pos x with hx0 | hx0 <;>
      rcases Nat.eq_zero_or_pos y with hy0 | hy0
    · omega
    · exfalso
      rw [if_pos hx0, if_neg (Nat.pos_iff_ne_zero.mp hy0)] at hxy
      omega
    · exfalso
      rw [if_neg (Nat.pos_iff_ne_zero.mp hx0), if_pos hy0] at hxy
      omega
    · rw [if_neg (Nat.pos_iff_ne_zero.mp hx0), if_neg (Nat.pos_iff_ne_zero.mp hy0)] at hxy
      omega
  · exact List.nodup_range n

/-! ## C2: `SocketRpcChannel.CallMethod` socket policy (`channel.py:412-441`) -/

/-- `close_socket` (`channel.py:412-421`): if a socket is present it is closed
and the field reset to `None`; otherwise nothing happens. -/
def close_socket (c : SocketRpcChannel) : SocketRpcChannel :=
  if c.sock.isSome then { c with sock := none } else c

/-- `CallMethod` (`channel.py:423-441`).  The body of the `try` block —
`validate_request`, the lazy `get_connection`, `send_rpc_message`,
`recv_rpc_message`, `parse_response` (lines 428-436) — performs socket I/O
and is abstracted as `body`, a function from the channel state to the channel
state it leaves behind together with either a parsed response or the
exception it raises.  The `except` clauses re-raise a `RequestError` without
touching the socket (line 437-438) and call `close_socket` before re-raising
anything else (line 439-441). -/
def CallMethod {α : Type} (body : SocketRpcChannel → SocketRpcChannel × Except PyErr α)
    (c : SocketRpcChannel) : SocketRpcChannel × Except PyErr α :=
  let r := body c
  match r.2 with
  | .ok v => (r.1, .ok v)
  | .error e =>
      match e with
      | .requestError m => (r.1, .error (.requestError m))
      | e => (close_socket r.1, .error e)

/-- C2: if the call raises `RequestError` the channel is left exactly as the
body left it (in particular `sock` is unchanged, so the socket stays open);
if it raises any other exception the socket is closed and `sock` is reset to
`none`; the exception is re-raised unchanged in both cases. -/
theorem callMethod_socket_policy {α : Type}
    (body : SocketRpcChannel → SocketRpcChannel × Except PyErr α)
    (c : SocketRpcChannel) :
    (∀ m, (body c).2 = .error (.requestError m) →
        CallMethod body c = body c) ∧
    (∀ e, (body c).2 = .error e → (∀ m, e ≠ .requestError m) →
        (CallMethod body c).1.sock = none ∧ (CallMethod body c).2 = .error e) := by
  constructor
  · intro m hm
    simp only [CallMethod, hm]
    rw [Prod.ext_iff]
    exact ⟨rfl, hm.symm⟩
  · intro e he hne
    have hclose : ∀ d : SocketRpcChannel, (close_socket d).sock = none := by
      intro d
      unfold close_socket
      rcases h : d.sock with _ | s
      · simp [h]
      · simp [h]
    cases e with
    | requestError m => exact absurd rfl (hne m)
    | exception m => simp only [CallMethod, he]; exact ⟨hclose _, trivial⟩
    | fileException m => simp only [CallMethod, he]; exact ⟨hclose _, trivial⟩
    | directoryException m => simp only [CallMethod, he]; exact ⟨hclose _, trivial⟩
    | fileNotFound m => simp only [CallMethod, he]; exact ⟨hclose _, trivial⟩
    | fileAlreadyExists m => simp only [CallMethod, he]; exact ⟨hclose _, trivial⟩
    | connectionFailure m => simp only [CallMethod, he]; exact ⟨hclose _, trivial⟩
    | invalidInput m => simp only [CallMethod, he]; exact ⟨hclose _, trivial⟩
    | outOfNN m => simp only [CallMethod, he]; exact ⟨hclose _, trivial⟩
    | socketError n t => simp only [CallMethod, he]; exact ⟨hclose _, trivial⟩

/-- C2 witness: a concrete body that opens the socket and then fails with a
`socket.timeout`, and one that fails with a `RequestError`. -/
theorem callMethod_socket_policy_witness :
    (CallMethod (fun c => ({ c with sock := some 1 },
        (.error (.requestError ['e']) : Except PyErr Nat))) channelInit
      = ({ sock := some 1, call_id := -3 }, .error (.requestError ['e']))) ∧
    ((CallMethod (fun c => ({ c with sock := some 1 },
        (.error (.socketError 110 true) : Except PyErr Nat))) channelInit).1.sock
      = none) := by
  constructor
  · exact (callMethod_socket_policy
      (fun c => ({ c with sock := some 1 }, .error (.requestError ['e'])))
      channelInit).1 ['e'] rfl
  · exact ((callMethod_socket_policy
      (fun c => ({ c with sock := some 1 }, .error (.socketError 110 true)))
      channelInit).2 (.socketError 110 true) rfl (fun m => by simp)).1

/-! ## C9: `Client.__init__` version check (`client.py:87-114`) -/

/-- The pieces of `Client.__init__` state that the claims depend on. The
`service` field holds the channel created by `RpcService.__init__`
(`service.py`), which builds a `SocketRpcChannel`; the channel socket stays
`None` until the first call, so constructing a client opens no connection. -/
structure ClientState where
  host : List Char
  port : Nat
  use_trash : Bool
  channel : SocketRpcChannel
  deriving Repr, DecidableEq

/-- `Client.__init__` (`client.py:87-114`): raises
`Exception("Only protocol versions >= 9 supported")` when
`hadoop_version < 9` (line 102-103) before any service or channel is
created; otherwise records the configuration and builds the RPC service,
whose channel starts unconnected. -/
def clientInit (host : List Char) (port : Nat) (hadoop_version : Int)
    (use_trash : Bool) : Except PyErr ClientState :=
  if hadoop_version < 9 then
    .error (.exception ("Only protocol versions >= 9 supported".toList))
  else
    .ok { host := host, port := port, use_trash := use_trash, channel := channelInit }

/-- C9: construction fails (with a plain `Exception`) exactly when
`hadoop_version < 9`; on success the channel exists but its socket is still
`none`, i.e. no connection has been attempted. -/
theorem clientInit_version_check (host : List Char) (port : Nat)
    (hadoop_version : Int) (use_trash : Bool) :
    (hadoop_version < 9 →
      clientInit host port hadoop_version use_trash =
        .error (.exception ("Only protocol versions >= 9 supported".toList))) ∧
    (9 ≤ hadoop_version →
      clientInit host port hadoop_version use_trash =
        .ok { host := host, port := port, use_trash := use_trash, channel := channelInit } ∧
      ∀ st, clientInit host port hadoop_version use_trash = .ok st → st.channel.sock = none) := by
  constructor
  · intro h
    simp [clientInit, h]
  · intro h
    have hlt : ¬ hadoop_version < 9 := not_lt.mpr h
    refine ⟨by simp [clientInit, hlt], ?_⟩
    intro st hst
    simp only [clientInit, if_neg hlt, Except.ok.injEq] at hst
    rw [← hst]
    rfl

/-- C9 witness: version 8 is rejected, version 9 is accepted with an
unconnected channel. -/
theorem clientInit_version_check_witness :
    (clientInit "h".toList 8020 8 false =
      .error (.exception ("Only protocol versions >= 9 supported".toList))) ∧
    (clientInit "h".toList 8020 9 false =
      .ok { host := "h".toList, port := 8020, use_trash := false, channel := channelInit }) := by
  constructor
  · exact (clientInit_version_check "h".toList 8020 8 false).1 (by norm_num)
  · exact ((clientInit_version_check "h".toList 8020 9 false).2 (by norm_num)).1

/-! ## File nodes and result records (`client.py`) -/

/-- The fields of a `HdfsFileStatusProto` node that the claims depend on.
`fileType` is the protocol enum: `1 = directory, 2 = file, 3 = symlink`
(`Client.FILETYPES`, `client.py:81-85`); `path` is the name relative to the
listed directory (empty for a `getFileInfo` reply). -/
structure FileNode where
  fileType : Nat
  length : Nat
  path : List Char := []
  deriving Repr, DecidableEq

/-- `Client._is_dir` (`client.py:1317-1318`): `FILETYPES.get(fileType)` is
the string `"d"` exactly when `fileType = 1`. -/
def is_dir (n : FileNode) : Bool := n.fileType = 1

/-- An operation result record, the dictionaries yielded by the path
operations (`{"path": ..., "result": ..., "error": ..., "message": ...}`). -/
structure ResultRec where
  path : List Char
  result : Bool
  error : Option (List Char) := none
  message : Option (List Char) := none
  deriving Repr, DecidableEq

/-! ## C10: `du` swallows `RequestError` on directories (`client.py:355-371`) -/

/-- The summary part of a `GetContentSummaryResponseProto`. -/
structure ContentSummary where
  length : Nat
  deriving Repr, DecidableEq

/-- A du output record `{"path": ..., "length": ...}`. -/
structure DuRecord where
  path : List Char
  length : Nat
  deriving Repr, DecidableEq

/-- `Client._handle_du` (`client.py:361-371`).  For a directory it issues a
`getContentSummary` RPC, whose outcome is the oracle `summary`; a
`RequestError` raised by the RPC is caught, printed and swallowed, so the
handler falls through and returns `None`; any other exception propagates.
For a non-directory the node length is returned directly. -/
def handle_du (path : List Char) (node : FileNode)
    (summary : Except PyErr ContentSummary) : Except PyErr (Option DuRecord) :=
  if is_dir node then
    match summary with
    | .ok r => .ok (some { path := path, length := r.length })
    | .error (.requestError _) => .ok none
    | .error e => .error e
  else
    .ok (some { path := path, length := node.length })

/-- `Client.du` (`client.py:350-359`): runs `_handle_du` over the items found
for the given paths and yields only the non-`None` results (`if item: yield
item`).  An item here is a path/node pair together with the outcome its
`getContentSummary` RPC would have. -/
def du (items : List (List Char × FileNode × Except PyErr ContentSummary)) :
    Except PyErr (List DuRecord) :=
  match items with
  | [] => .ok []
  | (p, n, s) :: rest =>
      match handle_du p n s with
      | .error e => .error e
      | .ok r =>
          match du rest with
          | .error e => .error e
          | .ok rs => .ok (match r with | some x => x :: rs | none => rs)

/-- C10: when the `getContentSummary` RPC for a directory fails with
`RequestError`, the handler returns `None` (no exception), and `du` yields
no record for that path — the remaining items are processed as if the failed
one were absent. -/
theorem du_swallows_requestError (p : List Char) (n : FileNode) (m : List Char)
    (rest : List (List Char × FileNode × Except PyErr ContentSummary))
    (hdir : is_dir n = true) :
    handle_du p n (.error (.requestError m)) = .ok none ∧
    du ((p, n, .error (.requestError m)) :: rest) = du rest := by
  have h1 : handle_du p n (.error (.requestError m)) = .ok none := by
    simp [handle_du, hdir]
  refine ⟨h1, ?_⟩
  simp only [du, h1]
  rcases h : du rest with e | rs
  · rfl
  · rfl

/-- C10 witness: a directory whose content summary RPC fails, followed by a
file that succeeds trivially. -/
theorem du_swallows_requestError_witness :
    du [("/a".toList, { fileType := 1, length := 0 }, .error (.requestError ['x'])),
        ("/b".toList, { fileType := 2, length := 7 }, .ok { length := 7 })] =
      .ok [{ path := "/b".toList, length := 7 }] := by
  have h := du_swallows_requestError "/a".toList { fileType := 1, length := 0 } ['x']
    [("/b".toList, { fileType := 2, length := 7 }, .ok { length := 7 })] (by decide)
  rw [h.2]
  rfl

/-! ## Python string and path helpers

Python `str` values are `List Char`.  These definitions mirror the CPython
`posixpath` implementations of the operations the client uses. -/

/-- Python `s.startswith(p)`. -/
def pyStartsWith (s p : List Char) : Bool := p.isPrefixOf s

/-- Python `s.endswith(p)`. -/
def pyEndsWith (s p : List Char) : Bool := p.isSuffixOf s

/-- Two-argument `os.path.join` on POSIX: an absolute second component
replaces the first; otherwise a single slash separates them unless the first
is empty or already ends in a slash. -/
def pathJoin (a b : List Char) : List Char :=
  if pyStartsWith b ['/'] then b
  else if a = [] ∨ pyEndsWith a ['/'] then a ++ b
  else a ++ '/' :: b

/-- The prefix of `p` up to and including the last slash (`p[:i]` with
`i = p.rfind(sep) + 1` in `posixpath.dirname`); empty when `p` has no
slash. -/
def headPart (p : List Char) : List Char :=
  (p.reverse.dropWhile (fun c => c ≠ '/')).reverse

/-- Python `s.rstrip("/")`. -/
def rstripSlashes (s : List Char) : List Char :=
  (s.reverse.dropWhile (fun c => c = '/')).reverse

/-- `os.path.dirname` on POSIX: the prefix of `p` up to and including the
last slash, with trailing slashes stripped unless the prefix consists only
of slashes. -/
def pyDirname (p : List Char) : List Char :=
  if headPart p ≠ [] ∧ (headPart p).any (fun c => c ≠ '/') then
    rstripSlashes (headPart p)
  else headPart p

/-- `re.sub("/+", "/", p)`: collapse runs of slashes (`Client._normalize_path`,
`client.py:1335-1336`). -/
def collapseSlashes : List Char → List Char
  | [] => []
  | [c] => [c]
  | a :: b :: rest =>
      if a = '/' ∧ b = '/' then collapseSlashes (b :: rest)
      else a :: collapseSlashes (b :: rest)

/-- Python `p.split("/")`. -/
def splitSlash : List Char → List (List Char)
  | [] => [[]]
  | c :: rest =>
      if c = '/' then [] :: splitSlash rest
      else
        match splitSlash rest with
        | [] => [[c]]
        | s :: ss => (c :: s) :: ss

/-- `posixpath.normpath`: drop empty and `.` components, resolve `..`, keep
up to two leading slashes, return `.` for an empty result. -/
def pyNormpath (path : List Char) : List Char :=
  if path = [] then ['.']
  else
    let initialSlashes : Nat :=
      if pyStartsWith path ['/'] then
        if pyStartsWith path ['/', '/'] ∧ ¬ pyStartsWith path ['/', '/', '/'] then 2 else 1
      else 0
    let comps := splitSlash path
    let newComps := comps.foldl
      (fun acc comp =>
        if comp = [] ∨ comp = ['.'] then acc
        else if comp ≠ ['.', '.'] ∨ (initialSlashes = 0 ∧ acc = []) ∨
            (acc ≠ [] ∧ acc.getLast? = some ['.', '.']) then acc ++ [comp]
        else if acc ≠ [] then acc.dropLast
        else acc)
      []
    let joined := List.intercalate ['/'] newComps
    let result := List.replicate initialSlashes '/' ++ joined
    if result = [] then ['.'] else result

/-- `Client._normalize_path` (`client.py:1335-1336`):
`os.path.normpath(re.sub("/+", "/", path))`. -/
def normalize_path (p : List Char) : List Char := pyNormpath (collapseSlashes p)

/-- `Client._get_full_path` (`client.py:1050-1054`): join the listed child
name onto the directory path when the node carries one. -/
def get_full_path (path : List Char) (node : FileNode) : List Char :=
  if node.path ≠ [] then pathJoin path node.path else path

/-! ## RPC requests issued by the path operations -/

/-- The `CreateRequestProto` fields filled in by `Client._create_file`
(`client.py:1056-1073`). -/
structure CreateRequest where
  src : List Char
  maskedPerm : Nat
  clientName : List Char
  createFlag : Nat
  createParent : Bool
  replication : Nat
  blockSize : Nat
  deriving Repr, DecidableEq

/-- The state-changing NameNode RPCs a delete/touchz flow can issue. -/
inductive RpcAction where
  | mkdirA (src : List Char) (createParent : Bool) (mode : Nat)
  | renameA (src dst : List Char)
  | deleteA (src : List Char) (recursive : Bool)
  | createA (req : CreateRequest)
  | completeA (src : List Char) (clientName : List Char)
  deriving Repr, DecidableEq

/-- `Client._create_file` (`client.py:1056-1080`): issues a create RPC with
`masked.perm = 0o644`, `clientName = "snakebite"`, `createFlag = 0x02`
(overwrite) or `0x01`, `createParent = False`, then a complete RPC whose
response is returned.  The issued requests are the embedded effect. -/
def create_file (path : List Char) (replication blocksize : Nat)
    (overwrite : Bool) : List RpcAction :=
  [.createA { src := path, maskedPerm := 0o644, clientName := "snakebite".toList,
              createFlag := if overwrite then 0x02 else 0x01, createParent := false,
              replication := replication, blockSize := blocksize },
   .completeA path ("snakebite".toList)]

/-! ## C8: `touchz` on existing paths (`client.py:580-628`, `client.py:1198-1206`) -/

/-- `Client._handle_touchz` (`client.py:612-628`).  `completeOk` is the
`.result` field of the complete RPC response; `parentExists` is whether
`_get_file_info(os.path.dirname(path))` finds a node.  Note the source
checks `node.length != 0` before `_is_dir(node)`. -/
def handle_touchz (completeOk : Bool) (path : List Char) (node : Option FileNode)
    (parentExists : Bool) (replication blocksize : Nat) :
    Except PyErr (List RpcAction × ResultRec) :=
  match node with
  | some n =>
      if n.length ≠ 0 then
        .error (.fileException ("touchz: not a zero-length file".toList))
      else if is_dir n then
        .error (.directoryException ("touchz: is a directory".toList))
      else
        .ok (create_file path replication blocksize true,
             { path := path, result := completeOk })
  | none =>
      if parentExists then
        .ok (create_file path replication blocksize false,
             { path := path, result := completeOk })
      else
        .error (.directoryException ("touchz: no such file or directory".toList))

/-- Fold a processor over the children of a listed directory
(`client.py:1215-1219`, with `recurse = False`). -/
def processChildren
    (processor : List Char → FileNode → Except PyErr (List RpcAction × ResultRec))
    (path : List Char) : List FileNode → Except PyErr (List RpcAction × List ResultRec)
  | [] => .ok ([], [])
  | n :: rest =>
      match processor (get_full_path path n) n with
      | .error e => .error e
      | .ok (as1, r) =>
          match processChildren processor path rest with
          | .error e => .error e
          | .ok (as2, rs) => .ok (as1 ++ as2, r :: rs)

/-- The non-glob single-path branch of `Client._find_items`
(`client.py:1197-1219`), with `recurse = False` (as every claim-relevant
caller passes).  `fileinfo` is the `getFileInfo` reply for the normalized
path and `listing` the directory listing used when children are included.
With `check_nonexistence = True`: a missing path is fed to the processor as
`None`, an existing path yields a literal `File already exists` failure
record and the processor is never called (`client.py:1204-1206`). -/
def find_items_literal
    (processor : List Char → Option FileNode → Except PyErr (List RpcAction × ResultRec))
    (include_toplevel include_children check_nonexistence : Bool)
    (path : List Char) (fileinfo : Option FileNode) (listing : List FileNode) :
    Except PyErr (List RpcAction × List ResultRec) :=
  match fileinfo with
  | none =>
      if check_nonexistence then
        match processor path none with
        | .error e => .error e
        | .ok (as, r) => .ok (as, [r])
      else .error (.fileNotFound ("No such file or directory".toList))
  | some fs =>
      if check_nonexistence then
        .ok ([], [{ path := path, result := false,
                    error := some ("File already exists".toList) }])
      else
        let top : Except PyErr (List RpcAction × List ResultRec) :=
          if include_toplevel ∨ ¬ is_dir fs then
            match processor (get_full_path path fs) fs with
            | .error e => .error e
            | .ok (as, r) => .ok (as, [r])
          else .ok ([], [])
        match top with
        | .error e => .error e
        | .ok (as1, rs1) =>
            if is_dir fs ∧ include_children then
              match processChildren (fun p n => processor p (some n)) path listing with
              | .error e => .error e
              | .ok (as2, rs2) => .ok (as1 ++ as2, rs1 ++ rs2)
            else .ok (as1, rs1)

/-- `Client.touchz` on one already-resolved literal path
(`client.py:580-610`): `_find_items` with `include_toplevel = True`,
`check_nonexistence = True`, `include_children = False`. -/
def touchz_single (completeOk parentExists : Bool) (replication blocksize : Nat)
    (path : List Char) (fileinfo : Option FileNode) :
    Except PyErr (List RpcAction × List ResultRec) :=
  find_items_literal
    (fun p n => handle_touchz completeOk p n parentExists replication blocksize)
    true false true path fileinfo []

/-- C8 counterexample: for an existing non-zero-length plain file at a
literal path, `touchz` does not raise `FileException` (as the claim states);
it yields a `File already exists` failure record and issues no RPC, because
`_find_items` with `check_nonexistence` intercepts existing paths before the
handler runs. -/
theorem touchz_claim_counterexample :
    touchz_single true true 3 128 "/x".toList (some { fileType := 2, length := 5 }) =
      .ok ([], [{ path := "/x".toList, result := false,
                  error := some ("File already exists".toList) }]) := by
  rfl

/-- C8 (amended): `touchz` on an existing literal path always yields the
`File already exists` failure record and issues no create; the claimed
`FileException` / `DirectoryException` / overwrite-recreate behaviour is the
contract of `_handle_touchz` itself, which only sees an existing node when
the path reached it through glob expansion: non-zero length raises
`FileException` (checked first), a zero-length directory raises
`DirectoryException`, and a zero-length file is re-created with the
overwrite create flag `0x02` (a create that makes the file zero-length
again). -/
theorem touchz_existing (completeOk parentExists : Bool) (repl bs : Nat)
    (path : List Char) (n : FileNode) :
    (touchz_single completeOk parentExists repl bs path (some n) =
      .ok ([], [{ path := path, result := false,
                  error := some ("File already exists".toList) }])) ∧
    (n.length ≠ 0 →
      handle_touchz completeOk path (some n) parentExists repl bs =
        .error (.fileException ("touchz: not a zero-length file".toList))) ∧
    (n.length = 0 → is_dir n = true →
      handle_touchz completeOk path (some n) parentExists repl bs =
        .error (.directoryException ("touchz: is a directory".toList))) ∧
    (n.length = 0 → is_dir n = false →
      handle_touchz completeOk path (some n) parentExists repl bs =
        .ok ([.createA { src := path, maskedPerm := 0o644,
                         clientName := "snakebite".toList, createFlag := 0x02,
                         createParent := false, replication := repl, blockSize := bs },
              .completeA path ("snakebite".toList)],
             { path := path, result := completeOk })) := by
  refine ⟨rfl, ?_, ?_, ?_⟩
  · intro hlen
    simp [handle_touchz, hlen]
  · intro hlen hdir
    simp [handle_touchz, hlen, hdir]
  · intro hlen hdir
    simp [handle_touchz, hlen, hdir, create_file]

/-- C8 witness: the amended theorem applied to a zero-length file node, a
zero-length directory node and a non-zero-length node. -/
theorem touchz_existing_witness :
    (handle_touchz true "/x".toList (some { fileType := 2, length := 0 }) true 3 128 =
      .ok ([.createA { src := "/x".toList, maskedPerm := 0o644,
                       clientName := "snakebite".toList, createFlag := 0x02,
                       createParent := false, replication := 3, blockSize := 128 },
            .completeA "/x".toList ("snakebite".toList)],
           { path := "/x".toList, result := true })) ∧
    (handle_touchz true "/d".toList (some { fileType := 1, length := 0 }) true 3 128 =
      .error (.directoryException ("touchz: is a directory".toList))) ∧
    (handle_touchz true "/y".toList (some { fileType := 2, length := 9 }) true 3 128 =
      .error (.fileException ("touchz: not a zero-length file".toList))) := by
  refine ⟨?_, ?_, ?_⟩
  · exact (touchz_existing true true 3 128 "/x".toList
      { fileType := 2, length := 0 }).2.2.2 rfl (by decide)
  · exact (touchz_existing true true 3 128 "/d".toList
      { fileType := 1, length := 0 }).2.2.1 rfl (by decide)
  · exact (touchz_existing true true 3 128 "/y".toList
      { fileType := 2, length := 9 }).2.1 (by decide)

/-! ## C7: `DataXceiverChannel.readBlock` (`channel.py:502-641`)

The wire is modelled as the parsed `BlockOpResponseProto` followed by a list
of packets; each packet carries the fields the code reads from it (the
4-byte packet length, the header proto's `dataLen`, the per-chunk checksums
and the payload bytes, consumed sequentially by `_read_bytes`).  The CRC32C
function itself (`snakebite/crc32c.py`) is an external pure function and is
a parameter `crcF`. -/

/-- One data-transfer packet as `readBlock` reads it
(`channel.py:583-612`). -/
structure Packet where
  packetLen : Nat
  dataLen : Nat
  checksums : List Nat
  payload : List Nat
  deriving Repr, DecidableEq

/-- The fields of a `BlockOpResponseProto` that `readBlock` inspects
(`channel.py:566-579`).  Checksum types: `0 = NULL`, `1 = CRC32`,
`2 = CRC32C` (`channel.py:457-462`). -/
structure BlockOpResponse where
  status : Nat
  checksumType : Nat
  bytesPerChecksum : Nat
  deriving Repr, DecidableEq

/-- Inner chunk loop (`channel.py:622-632`): reads
`min(bytes_per_chunk, data_len - read_on_packet)` bytes per chunk, checks the
chunk CRC when `check_crc` and the checksum index is in range, and appends
the chunk to the current load.  Returns the load bytes and the updated
`read_on_packet`.  Arguments after the packet data: chunks still to read in
this load, the chunk index `j`, and `read_on_packet`. -/
def chunkLoop (crcF : List Nat → Nat) (check_crc : Bool) (bpc : Nat)
    (dataLen : Int) (payload checksums : List Nat) (cpl i : Nat) :
    Nat → Nat → Nat → Except PyErr (List Nat × Nat)
  | 0, _, readOn => .ok ([], readOn)
  | jrem + 1, j, readOn =>
      let bytesToRead : Int := min (bpc : Int) (dataLen - (readOn : Int))
      if bytesToRead < 0 then
        .error (.exception ("recv of a negative byte count".toList))
      else
        let chunk := (payload.drop readOn).take bytesToRead.toNat
        if check_crc ∧ (i * cpl + j) < checksums.length ∧
            crcF chunk ≠ checksums.getD (i * cpl + j) 0 then
          .error (.exception ("Checksum does not match".toList))
        else
          match chunkLoop crcF check_crc bpc dataLen payload checksums cpl i
              jrem (j + 1) (readOn + chunk.length) with
          | .error e => .error e
          | .ok (rest, ro) => .ok (chunk ++ rest, ro)

/-- Outer load loop (`channel.py:620-633`): one load is yielded per
iteration.  Arguments after the packet data: loads still to emit, the load
index `i`, and `read_on_packet`.  Returns the loads and the final
`read_on_packet` (which is also the number of payload bytes consumed, the
amount added to `total_read`). -/
def loadLoop (crcF : List Nat → Nat) (check_crc : Bool) (bpc : Nat)
    (dataLen : Int) (payload checksums : List Nat) (cpl : Nat) :
    Nat → Nat → Nat → Except PyErr (List (List Nat) × Nat)
  | 0, _, readOn => .ok ([], readOn)
  | irem + 1, i, readOn =>
      match chunkLoop crcF check_crc bpc dataLen payload checksums cpl i
          cpl 0 readOn with
      | .error e => .error e
      | .ok (load, ro) =>
          match loadLoop crcF check_crc bpc dataLen payload checksums cpl
              irem (i + 1) ro with
          | .error e => .error e
          | .ok (loads, ro2) => .ok (load :: loads, ro2)

/-- Per-packet processing (`channel.py:583-633`): the chunk count comes from
the header proto's `dataLen`, the payload length is recomputed from the
packet frame length (`packet_len - 4 - chunks * 4`, `channel.py:599`), and
the load geometry uses `LOAD_SIZE = 16000` rounded down to a multiple of
`bytes_per_chunk` (the source computes it in floating point; all quantities
involved are small exact integers). -/
def processPacket (crcF : List Nat → Nat) (check_crc : Bool) (bpc : Nat)
    (p : Packet) : Except PyErr (List (List Nat) × Nat) :=
  let chunksPerPacket := (p.dataLen + bpc - 1) / bpc
  let dataLen : Int := (p.packetLen : Int) - 4 - (chunksPerPacket : Int) * 4
  let bytesPerLoad := 16000 - 16000 % bpc
  let chunksPerLoad := bytesPerLoad / bpc
  let loadsPerPacket := (bpc * chunksPerPacket + bytesPerLoad - 1) / bytesPerLoad
  loadLoop crcF check_crc bpc dataLen p.payload p.checksums chunksPerLoad
    loadsPerPacket 0 0

/-- The packet `while` loop (`channel.py:580-633`): packets are read while
`total_read < length`; running out of wire data while bytes are still owed
is a socket failure. -/
def packetsLoop (crcF : List Nat → Nat) (check_crc : Bool) (bpc len : Nat) :
    List Packet → Nat → Except PyErr (List (List Nat))
  | [], totalRead =>
      if totalRead < len then
        .error (.exception ("socket stream exhausted".toList))
      else .ok []
  | p :: rest, totalRead =>
      if totalRead < len then
        match processPacket crcF check_crc bpc p with
        | .error e => .error e
        | .ok (loads, consumed) =>
            match packetsLoop crcF check_crc bpc len rest (totalRead + consumed) with
            | .error e => .error e
            | .ok more => .ok (loads ++ more)
      else .ok []

/-- `readBlock` (`channel.py:502-641`) after the request has been sent:
`length` is reduced by `offset` (line 539); then the checksum type of the
response is checked first (lines 570-576) — only CRC32C (2) and CRC32 (1)
are accepted, anything else (including NULL = 0) raises — and only then is
the status compared with SUCCESS (line 579): on a non-SUCCESS status the
packet loop is skipped entirely and the generator finishes without yielding
and without raising. -/
def readBlock (crcF : List Nat → Nat) (check_crc : Bool) (length offset : Nat)
    (resp : BlockOpResponse) (packets : List Packet) :
    Except PyErr (List (List Nat)) :=
  let len := length - offset
  if resp.checksumType = 2 ∨ resp.checksumType = 1 then
    if resp.status = 0 then
      packetsLoop crcF check_crc resp.bytesPerChecksum len packets 0
    else .ok []
  else .error (.exception ("Checksum type not implemented".toList))

/-- C7 counterexample: with checksum type NULL (0) the code raises even
though the claim says NULL is accepted; and with a non-SUCCESS status (1)
and checksum type CRC32 the code does not abort with an error — it returns
normally having yielded nothing. -/
theorem readBlock_claim_counterexample :
    (readBlock (fun _ => 0) true 1024 0
        { status := 0, checksumType := 0, bytesPerChecksum := 512 } [] =
      .error (.exception ("Checksum type not implemented".toList))) ∧
    (readBlock (fun _ => 0) true 1024 0
        { status := 1, checksumType := 1, bytesPerChecksum := 512 } [] =
      .ok []) := by
  exact ⟨rfl, rfl⟩

/-- C7 (amended): `readBlock` accepts exactly the checksum types CRC32 (1)
and CRC32C (2), raising an error for any other type — including NULL (0);
and a non-SUCCESS `BlockOpResponse` status does not abort with an error: the
packet loop is skipped, so the generator yields nothing and returns.  Only
with an accepted checksum type and SUCCESS status are packets streamed. -/
theorem readBlock_response_check (crcF : List Nat → Nat) (check_crc : Bool)
    (length offset : Nat) (resp : BlockOpResponse) (packets : List Packet) :
    (resp.checksumType ≠ 1 → resp.checksumType ≠ 2 →
      readBlock crcF check_crc length offset resp packets =
        .error (.exception ("Checksum type not implemented".toList))) ∧
    ((resp.checksumType = 1 ∨ resp.checksumType = 2) → resp.status ≠ 0 →
      readBlock crcF check_crc length offset resp packets = .ok []) ∧
    ((resp.checksumType = 1 ∨ resp.checksumType = 2) → resp.status = 0 →
      readBlock crcF check_crc length offset resp packets =
        packetsLoop crcF check_crc resp.bytesPerChecksum (length - offset) packets 0) := by
  refine ⟨?_, ?_, ?_⟩
  · intro h1 h2
    have hc : ¬ (resp.checksumType = 2 ∨ resp.checksumType = 1) := by
      rintro (h | h)
      · exact h2 h
      · exact h1 h
    simp [readBlock, hc]
  · intro hc hs
    have hc2 : resp.checksumType = 2 ∨ resp.checksumType = 1 := hc.symm
    simp [readBlock, hc2, hs]
  · intro hc hs
    have hc2 : resp.checksumType = 2 ∨ resp.checksumType = 1 := hc.symm
    simp [readBlock, hc2, hs]

/-- C7 witness: the amended theorem at concrete responses. -/
theorem readBlock_response_check_witness :
    (readBlock (fun _ => 0) false 10 0
        { status := 0, checksumType := 3, bytesPerChecksum := 512 } [] =
      .error (.exception ("Checksum type not implemented".toList))) ∧
    (readBlock (fun _ => 0) false 10 0
        { status := 2, checksumType := 2, bytesPerChecksum := 512 } [] = .ok []) ∧
    (readBlock (fun _ => 0) false 0 0
        { status := 0, checksumType := 2, bytesPerChecksum := 512 } [] =
      packetsLoop (fun _ => 0) false 512 0 [] 0) := by
  refine ⟨?_, ?_, ?_⟩
  · exact (readBlock_response_check (fun _ => 0) false 10 0
      { status := 0, checksumType := 3, bytesPerChecksum := 512 } []).1
      (by decide) (by decide)
  · exact (readBlock_response_check (fun _ => 0) false 10 0
      { status := 2, checksumType := 2, bytesPerChecksum := 512 } []).2.1
      (Or.inr rfl) (by decide)
  · exact (readBlock_response_check (fun _ => 0) false 0 0
      { status := 0, checksumType := 2, bytesPerChecksum := 512 } []).2.2
      (Or.inr rfl) rfl

/-! ## C4: replica retry in `Client._read_file` (`client.py:1121-1156`) -/

/-- The outcome of trying one DataNode replica while reading a block
(`client.py:1131-1152`): `connect()` can return `False`; `readBlock` can
raise after yielding some loads; or the replica serves the block's loads to
completion.  The list order is the order in which the priority queue hands
out the locations. -/
inductive ReplicaOutcome where
  | connectFail
  | readFail (partialLoads : List (List Nat))
  | readOk (loads : List (List Nat))
  deriving Repr, DecidableEq

/-- How the per-block replica loop ends. -/
inductive BlockReadEnd where
  | success
  | connectionFailure
  | blockReadError
  deriving Repr, DecidableEq

/-- The per-block replica loop of `Client._read_file`
(`client.py:1129-1156`): pop a location; if `connect()` fails raise
`ConnectionFailureException` at once (line 1148-1152); if `readBlock` raises,
the loads already yielded stand, the storage is marked failed and the next
location is tried; a completed read (at least one load yielded, so
`successful_read` was set) breaks out; an exhausted queue without a
successful read raises `Exception("Failure to read block ...")`
(line 1155-1156).  Returns the loads yielded downstream and how the loop
ended. -/
def read_block_replicas : List ReplicaOutcome → List (List Nat) × BlockReadEnd
  | [] => ([], .blockReadError)
  | .connectFail :: _ => ([], .connectionFailure)
  | .readFail ls :: rest =>
      let r := read_block_replicas rest
      (ls ++ r.1, r.2)
  | .readOk ls :: rest =>
      if ls.isEmpty then read_block_replicas rest
      else (ls, .success)

/-- C4 counterexample: when the first replica fails to connect, the loop
raises `ConnectionFailureException` immediately, even though the second
replica — never tried — would have served the block (second conjunct). The
claim says a connect failure moves on to the next replica and an error comes
only after every replica has been tried. -/
theorem blockRead_claim_counterexample :
    (read_block_replicas [.connectFail, .readOk [[65]]] =
      ([], .connectionFailure)) ∧
    (read_block_replicas [.readOk [[65]]] = ([[65]], .success)) := by
  exact ⟨rfl, rfl⟩

/-- C4 (amended): an error raised *while reading from a connected replica*
is recovered locally — the partial loads stand and the next replica in the
queue is tried — and the block-level `Failure to read block` error is raised
only when every replica failed during read; but a failure to *connect* to a
replica raises `ConnectionFailureException` immediately, without trying the
remaining replicas. -/
theorem blockRead_replica_retry (rs : List ReplicaOutcome) :
    (∀ ls rest, read_block_replicas (.readFail ls :: rest) =
      (ls ++ (read_block_replicas rest).1, (read_block_replicas rest).2)) ∧
    ((∀ r ∈ rs, ∃ ls, r = .readFail ls) →
      (read_block_replicas rs).2 = .blockReadError) ∧
    (∀ rest, read_block_replicas (.connectFail :: rest) =
      ([], .connectionFailure)) := by
  refine ⟨fun ls rest => rfl, ?_, fun rest => rfl⟩
  induction rs with
  | nil => intro _; rfl
  | cons r rest ih =>
      intro h
      obtain ⟨ls, hls⟩ := h r (List.mem_cons_self r rest)
      subst hls
      have := ih (fun x hx => h x (List.mem_cons_of_mem _ hx))
      simp [read_block_replicas, this]

/-- C4 witness: the amended theorem applied to two replicas that both fail
during read. -/
theorem blockRead_replica_retry_witness :
    read_block_replicas [.readFail [[1]], .readFail [[2]]] =
      ([[1], [2]], .blockReadError) := by
  have h := blockRead_replica_retry [ReplicaOutcome.readFail [[1]], .readFail [[2]]]
  have h2 := h.2.1 (by
    intro r hr
    simp only [List.mem_cons, List.not_mem_nil, or_false] at hr
    rcases hr with rfl | rfl
    · exact ⟨[[1]], rfl⟩
    · exact ⟨[[2]], rfl⟩)
  have h3 := h.1 [[1]] [.readFail [[2]]]
  rw [h3]
  rw [h3] at h2
  refine Prod.ext ?_ h2
  rfl

/-! ## C1: `HAClient._ha_gen_method` (`client.py:1437-1450`) -/

/-- Linux values of `errno.ECONNREFUSED` and `errno.EHOSTUNREACH`, the two
errnos `__handle_socket_error` fails over on (`client.py:1414`). -/
def ECONNREFUSED : Nat := 111

/-- See `ECONNREFUSED`. -/
def EHOSTUNREACH : Nat := 113

/-- The prefix `__handle_request_error` tests for (`client.py:1405`). -/
def standbyExc : List Char := "org.apache.hadoop.ipc.StandbyException".toList

/-- How one run of the underlying generator `func(self, *args, **kw)` ends:
it is exhausted normally, or it raises. -/
inductive GenEnding where
  | finished
  | failed (e : PyErr)
  deriving Repr, DecidableEq

/-- How the wrapping generator produced by `_ha_gen_method` terminates. -/
inductive HaGenResult where
  | completed
  | raised (e : PyErr)
  | outOfNN
  deriving Repr, DecidableEq

/-- `HAClient._ha_gen_method` (`client.py:1437-1450`) together with
`__handle_request_error` (`client.py:1403-1410`) and
`__handle_socket_error` (`client.py:1412-1422`).  The `k`-th element of the
input is the run the underlying generator would produce on the `k`-th
namenode (`self.namenode.next()` advances through `_switch_namenode`;
exhausting the namenode list raises `OutOfNNException`,
`client.py:1386-1401`): the items it yields before it ends, and how it ends.
The wrapper yields items from the current run; on a `RequestError` whose
message starts with the standby prefix, or a socket error with errno
`ECONNREFUSED`/`EHOSTUNREACH` or a timeout, it switches namenode and — being
inside `while True` — restarts the generator from scratch, re-yielding from
the new run; any other error is re-raised to the consumer. -/
def ha_gen_run {α : Type} : List (List α × GenEnding) → List α × HaGenResult
  | [] => ([], .outOfNN)
  | (items, ending) :: rest =>
      match ending with
      | .finished => (items, .completed)
      | .failed (.requestError msg) =>
          if pyStartsWith msg standbyExc then
            let r := ha_gen_run rest
            (items ++ r.1, r.2)
          else (items, .raised (.requestError msg))
      | .failed (.socketError errno timeout) =>
          if errno = ECONNREFUSED ∨ errno = EHOSTUNREACH ∨ timeout then
            let r := ha_gen_run rest
            (items ++ r.1, r.2)
          else (items, .raised (.socketError errno timeout))
      | .failed e => (items, .raised e)

/-- C1 failing input, evaluated: the generator on the first namenode yields
one item and then raises a standby `RequestError`; the second namenode's run
yields the same item and finishes.  The wrapper silently restarts after the
first item and emits it twice — no error is surfaced — contradicting the
claim that a generator that has yielded is never restarted.  The same
happens for a refused-connection socket error. -/
theorem haGen_restart_duplicates :
    (ha_gen_run [([0], .failed (.requestError
        ("org.apache.hadoop.ipc.StandbyException foo".toList))),
      ([0], .finished)] = ([0, 0], .completed)) ∧
    (ha_gen_run [([0], .failed (.socketError 111 false)), ([0], .finished)] =
      ([0, 0], .completed)) := by
  constructor
  · rfl
  · rfl

/-- C1, actual behaviour: a `RequestError` that is *not* a standby
indication is surfaced to the caller after the items already yielded, and
so is a socket error that is neither a refused/unreachable connection nor a
timeout. -/
theorem haGen_surfaces_other_errors {α : Type} (items : List α)
    (rest : List (List α × GenEnding)) :
    (∀ msg, pyStartsWith msg standbyExc = false →
      ha_gen_run ((items, .failed (.requestError msg)) :: rest) =
        (items, .raised (.requestError msg))) ∧
    (∀ errno timeout, ¬ (errno = ECONNREFUSED ∨ errno = EHOSTUNREACH ∨ timeout = true) →
      ha_gen_run ((items, .failed (.socketError errno timeout)) :: rest) =
        (items, .raised (.socketError errno timeout))) := by
  constructor
  · intro msg hmsg
    simp [ha_gen_run, hmsg]
  · intro errno timeout h
    have h2 : ¬ (errno = ECONNREFUSED ∨ errno = EHOSTUNREACH ∨ timeout) := by
      simpa using h
    simp [ha_gen_run, h2]

/-- Witness for `haGen_surfaces_other_errors`: a permission error is raised
to the consumer after one yielded item. -/
theorem haGen_surfaces_other_errors_witness :
    ha_gen_run [([0], .failed (.requestError ("org.apache.AccessControlException".toList))),
                ([0], .finished)] =
      ([0], .raised (.requestError ("org.apache.AccessControlException".toList))) := by
  exact (haGen_surfaces_other_errors [0]
    [([0], .finished)]).1 ("org.apache.AccessControlException".toList) (by decide)

/-! ## C6: `RpcBufferedReader` (`channel.py:103-151`) -/

/-- The state of an `RpcBufferedReader`: the bytes still to arrive on the
wrapped socket, the internal buffer, and `pos`, the index of the last byte
consumed (`-1` initially, `channel.py:144-146`). -/
structure RpcBufferedReader where
  socket : List Nat
  buffer : List Nat
  pos : Int
  deriving Repr, DecidableEq

/-- A fresh reader over a socket (`__init__` calls `reset`,
`channel.py:109-111`). -/
def newReader (socket : List Nat) : RpcBufferedReader :=
  { socket := socket, buffer := [], pos := -1 }

/-- `_buffer_bytes` (`channel.py:124-134`): append `n` bytes from the socket
to the buffer; the retry loop raises once the socket cannot provide them. -/
def buffer_bytes (r : RpcBufferedReader) (n : Nat) : Except PyErr RpcBufferedReader :=
  if n ≤ r.socket.length then
    .ok { r with socket := r.socket.drop n, buffer := r.buffer ++ r.socket.take n }
  else
    .error (.exception ("RpcBufferedReader only managed to read a part".toList))

/-- `read` (`channel.py:113-122`): fetch
`bytes_wanted = n - buffer_length + pos + 1` bytes when positive, return the
slice `buffer[pos + 1 : pos + n + 1]` and advance `pos` by `n`. -/
def readerRead (r : RpcBufferedReader) (n : Nat) :
    Except PyErr (List Nat × RpcBufferedReader) :=
  let bytesWanted : Int := (n : Int) - (r.buffer.length : Int) + r.pos + 1
  let step : Except PyErr RpcBufferedReader :=
    if 0 < bytesWanted then buffer_bytes r bytesWanted.toNat else .ok r
  match step with
  | .error e => .error e
  | .ok r1 =>
      let ret := (r1.buffer.drop (r1.pos + 1).toNat).take n
      .ok (ret, { r1 with pos := r1.pos + n })

/-- `rewind` (`channel.py:136-142`): decrement `pos`, touching nothing
else. -/
def readerRewind (r : RpcBufferedReader) (places : Nat) : RpcBufferedReader :=
  { r with pos := r.pos - places }

/-- C6: starting from any reader state satisfying the invariant
`-1 ≤ pos` and `pos + 1 ≤ buffer length`, if `read n` succeeds returning
`b`, then `b` has exactly `n` bytes, `rewind k` (for `k ≤ n`) decrements
`pos` by `k` while keeping the buffer (and socket) intact, and the following
`read k` succeeds, returns exactly the last `k` bytes of `b`, touches the
socket no further, and puts the reader back in the state `read n` left it
in. -/
theorem reader_rewind_read (r : RpcBufferedReader) (n k : Nat) (b : List Nat)
    (r' : RpcBufferedReader)
    (hpos : -1 ≤ r.pos) (hbuf : r.pos + 1 ≤ (r.buffer.length : Int))
    (hn : 1 ≤ n) (hk : k ≤ n)
    (hread : readerRead r n = .ok (b, r')) :
    b.length = n ∧
    (readerRewind r' k).buffer = r'.buffer ∧
    (readerRewind r' k).socket = r'.socket ∧
    (readerRewind r' k).pos = r'.pos - k ∧
    readerRead (readerRewind r' k) k = .ok (b.drop (n - k), r') := by
  -- Unpack the first read.
  have hmain : r'.pos = r.pos + n ∧ r'.socket.length + r'.buffer.length =
      r.socket.length + r.buffer.length ∧
      (r.pos + 1 + n ≤ (r'.buffer.length : Int)) ∧
      b = (r'.buffer.drop (r.pos + 1).toNat).take n := by
    simp only [readerRead] at hread
    by_cases hw : 0 < (n : Int) - (r.buffer.length : Int) + r.pos + 1
    · rw [if_pos hw] at hread
      simp only [buffer_bytes] at hread
      by_cases hs : ((n : Int) - (r.buffer.length : Int) + r.pos + 1).toNat ≤ r.socket.length
      · rw [if_pos hs] at hread
        simp only [Except.ok.injEq, Prod.mk.injEq] at hread
        obtain ⟨hb, hr⟩ := hread
        subst hr
        dsimp only
        refine ⟨rfl, ?_, ?_, hb.symm⟩
        · simp only [List.length_append, List.length_take, List.length_drop]
          omega
        · simp only [List.length_append, List.length_take, List.length_drop]
          push_cast
          omega
      · rw [if_neg hs] at hread
        exact absurd hread (by simp)
    · rw [if_neg hw] at hread
      simp only [Except.ok.injEq, Prod.mk.injEq] at hread
      obtain ⟨hb, hr⟩ := hread
      subst hr
      dsimp only
      refine ⟨rfl, rfl, by omega, hb.symm⟩
  obtain ⟨hp, hsock, hlen, hb⟩ := hmain
  -- Length of the returned slice.
  have hblen : b.length = n := by
    rw [hb]
    simp only [List.length_take, List.length_drop]
    omega
  refine ⟨hblen, rfl, rfl, rfl, ?_⟩
  -- The second read needs no more socket bytes.
  have hw2 : ¬ (0 < (k : Int) - (r'.buffer.length : Int) + (r'.pos - (k : Int)) + 1) := by
    omega
  have hdrop : ((r'.pos - (k : Int) + 1).toNat) = (r.pos + 1).toNat + (n - k) := by
    omega
  have hsuffix : (((r'.buffer.drop (r.pos + 1).toNat).take n).drop (n - k)) =
      (r'.buffer.drop ((r.pos + 1).toNat + (n - k))).take k := by
    rw [List.drop_take, List.drop_drop]
    have h1 : n - (n - k) = k := by omega
    rw [h1]
  have hfinal : r'.pos - (k : Int) + (k : Int) = r'.pos := by omega
  simp only [readerRead, readerRewind]
  rw [if_neg hw2]
  dsimp only
  rw [hdrop, hb, hsuffix, hfinal]

/-- C6 witness: read 3 bytes, rewind 2, read 2 again from a concrete
socket. -/
theorem reader_rewind_read_witness :
    readerRead (newReader [10, 20, 30, 40]) 3 =
      .ok ([10, 20, 30],
           { socket := [40], buffer := [10, 20, 30], pos := 2 }) ∧
    readerRead
        (readerRewind { socket := [40], buffer := [10, 20, 30], pos := 2 } 2) 2 =
      .ok ([20, 30], { socket := [40], buffer := [10, 20, 30], pos := 2 }) := by
  have h1 : readerRead (newReader [10, 20, 30, 40]) 3 =
      .ok ([10, 20, 30],
           { socket := [40], buffer := [10, 20, 30], pos := 2 }) := by rfl
  refine ⟨h1, ?_⟩
  have h := reader_rewind_read (newReader [10, 20, 30, 40]) 3 2 [10, 20, 30]
    { socket := [40], buffer := [10, 20, 30], pos := 2 }
    (by decide) (by decide) (by decide) (by decide) h1
  exact h.2.2.2.2

/-! ## Facts about the path helpers, used by the trash-delete claim -/

theorem dropWhile_append_all {p : Char → Bool} {xs ys : List Char}
    (h : ∀ x ∈ xs, p x = true) :
    (xs ++ ys).dropWhile p = ys.dropWhile p := by
  induction xs with
  | nil => rfl
  | cons a xs ih =>
      have ha : p a = true := h a (List.mem_cons_self a xs)
      simp only [List.cons_append, List.dropWhile_cons, ha, if_true]
      exact ih (fun x hx => h x (List.mem_cons_of_mem a hx))

theorem dropWhile_append_ex {p : Char → Bool} {xs ys : List Char}
    (h : ∃ x ∈ xs, p x = false) :
    (xs ++ ys).dropWhile p = xs.dropWhile p ++ ys := by
  induction xs with
  | nil =>
      obtain ⟨x, hx, _⟩ := h
      exact absurd hx (List.not_mem_nil x)
  | cons a xs ih =>
      by_cases ha : p a = true
      · simp only [List.cons_append, List.dropWhile_cons, ha, if_true]
        apply ih
        obtain ⟨x, hx, hpx⟩ := h
        rcases List.mem_cons.mp hx with rfl | hx2
        · rw [ha] at hpx
          exact absurd hpx (by simp)
        · exact ⟨x, hx2, hpx⟩
      · have ha2 : p a = false := by
          cases hpa : p a
          · rfl
          · exact absurd hpa ha
        simp [List.dropWhile_cons, ha2]

theorem head_dropWhile_false (p : Char → Bool) (l : List Char) (a : Char)
    (t : List Char) (h : l.dropWhile p = a :: t) : p a = false := by
  induction l generalizing a t with
  | nil => simp [List.dropWhile] at h
  | cons b l2 ih =>
      rw [List.dropWhile_cons] at h
      by_cases hb : p b = true
      · rw [if_pos hb] at h
        exact ih a t h
      · rw [if_neg hb] at h
        cases h
        cases hpb : p b
        · rfl
        · exact absurd hpb hb

theorem reverse_dropWhile_prefix (p : Char → Bool) (s : List Char) :
    (s.reverse.dropWhile p).reverse <+: s := by
  obtain ⟨t, ht⟩ := List.dropWhile_suffix (l := s.reverse) p
  refine ⟨t.reverse, ?_⟩
  have h2 := congrArg List.reverse ht
  simpa [List.reverse_append] using h2

theorem prefix_head? {l s : List Char} (h : l <+: s) (hne : l ≠ []) :
    s.head? = l.head? := by
  obtain ⟨t, rfl⟩ := h
  cases l with
  | nil => exact absurd rfl hne
  | cons a l2 => rfl

theorem pyStartsWith_single (s : List Char) (c : Char) :
    pyStartsWith s [c] = true ↔ s.head? = some c := by
  cases s with
  | nil => simp [pyStartsWith, List.isPrefixOf]
  | cons a l =>
      simp only [pyStartsWith, List.isPrefixOf, List.head?_cons, Option.some.injEq,
        Bool.and_eq_true, beq_iff_eq]
      constructor
      · rintro ⟨rfl, _⟩
        rfl
      · rintro rfl
        refine ⟨rfl, ?_⟩
        simp [List.isPrefixOf]

theorem pyEndsWith_single (s : List Char) (c : Char) :
    pyEndsWith s [c] = true ↔ s.getLast? = some c := by
  have h1 : pyEndsWith s [c] = pyStartsWith s.reverse [c] := by
    simp [pyEndsWith, pyStartsWith, List.isSuffixOf]
  rw [h1, pyStartsWith_single, List.head?_reverse]

theorem pathJoin_sep (a b : List Char) (ha : a ≠ []) (hal : a.getLast? ≠ some '/')
    (hbh : b.head? ≠ some '/') :
    pathJoin a b = a ++ '/' :: b := by
  have h1 : pyStartsWith b ['/'] = false := by
    cases h : pyStartsWith b ['/']
    · rfl
    · exact absurd ((pyStartsWith_single b '/').mp h) hbh
  have h2 : pyEndsWith a ['/'] = false := by
    cases h : pyEndsWith a ['/']
    · rfl
    · exact absurd ((pyEndsWith_single a '/').mp h) hal
  unfold pathJoin
  rw [h1, h2]
  simp only [Bool.false_eq_true, if_false, or_false]
  rw [if_neg ha]

theorem headPart_append_no_slash (A rest : List Char) (h : '/' ∉ rest) :
    headPart (A ++ '/' :: rest) = A ++ ['/'] := by
  have hall : ∀ x ∈ rest.reverse, (fun c => decide (c ≠ '/')) x = true := by
    intro x hx
    have hxr : x ∈ rest := List.mem_reverse.mp hx
    simp only [decide_eq_true_eq]
    intro hxe
    rw [hxe] at hxr
    exact h hxr
  have h1 : (A ++ '/' :: rest).reverse = rest.reverse ++ ('/' :: A.reverse) := by
    simp [List.reverse_append]
  unfold headPart
  rw [h1, dropWhile_append_all hall]
  simp [List.dropWhile_cons]

theorem headPart_append_slash (A rest : List Char) (h : '/' ∈ rest) :
    headPart (A ++ '/' :: rest) = A ++ '/' :: headPart rest := by
  have hex : ∃ x ∈ rest.reverse, (fun c => decide (c ≠ '/')) x = false :=
    ⟨'/', List.mem_reverse.mpr h, by simp⟩
  have h1 : (A ++ '/' :: rest).reverse = rest.reverse ++ ('/' :: A.reverse) := by
    simp [List.reverse_append]
  unfold headPart
  rw [h1, dropWhile_append_ex hex]
  simp [List.reverse_append]

theorem rstripSlashes_append_slash (A : List Char) :
    rstripSlashes (A ++ ['/']) = rstripSlashes A := by
  unfold rstripSlashes
  simp [List.reverse_append, List.dropWhile_cons]

theorem rstripSlashes_no_slash_end (A : List Char) (h : A.getLast? ≠ some '/') :
    rstripSlashes A = A := by
  unfold rstripSlashes
  rcases hA : A.reverse with _ | ⟨a, l⟩
  · have hnil : A = [] := by
      have h2 := congrArg List.reverse hA
      simpa using h2
    simp [hnil]
  · have ha : ¬ ((fun c => decide (c = '/')) a = true) := by
      simp only [decide_eq_true_eq]
      intro hc
      apply h
      rw [← List.head?_reverse, hA, hc]
      rfl
    have hstep : List.dropWhile (fun c => decide (c = '/')) (a :: l) = a :: l :=
      List.dropWhile_cons_of_neg ha
    rw [hstep, ← hA, List.reverse_reverse]

theorem rstripSlashes_ne_nil (s : List Char) (c : Char) (hh : s.head? = some c)
    (hc : c ≠ '/') : rstripSlashes s ≠ [] := by
  intro hnil
  unfold rstripSlashes at hnil
  have h2 : s.reverse.dropWhile (fun c => decide (c = '/')) = [] := by
    have h3 := congrArg List.reverse hnil
    simpa using h3
  rw [List.dropWhile_eq_nil_iff] at h2
  have hmem : c ∈ s := by
    cases s with
    | nil => simp at hh
    | cons a l =>
        simp only [List.head?_cons, Option.some.injEq] at hh
        rw [← hh]
        exact List.mem_cons_self a l
  have := h2 c (List.mem_reverse.mpr hmem)
  simp at this
  exact hc this

theorem rstripSlashes_append_of_ne (X Y : List Char) (h : rstripSlashes Y ≠ []) :
    rstripSlashes (X ++ Y) = X ++ rstripSlashes Y := by
  have hex : ∃ x ∈ Y.reverse, (fun c => decide (c = '/')) x = false := by
    by_contra hno
    push_neg at hno
    apply h
    unfold rstripSlashes
    have hall : Y.reverse.dropWhile (fun c => decide (c = '/')) = [] := by
      rw [List.dropWhile_eq_nil_iff]
      intro x hx
      cases hpx : decide (x = '/')
      · exact absurd hpx (hno x hx)
      · rfl
    simp [hall]
  unfold rstripSlashes
  rw [List.reverse_append, dropWhile_append_ex hex]
  simp [List.reverse_append]

theorem headPart_ne_nil_of_mem (s : List Char) (h : '/' ∈ s) : headPart s ≠ [] := by
  intro hnil
  unfold headPart at hnil
  have h2 : s.reverse.dropWhile (fun c => decide (c ≠ '/')) = [] := by
    have h3 := congrArg List.reverse hnil
    simpa using h3
  rw [List.dropWhile_eq_nil_iff] at h2
  have := h2 '/' (List.mem_reverse.mpr h)
  simp at this

theorem headPart_eq_nil_of_not_mem (s : List Char) (h : '/' ∉ s) :
    headPart s = [] := by
  unfold headPart
  have h2 : s.reverse.dropWhile (fun c => decide (c ≠ '/')) = [] := by
    rw [List.dropWhile_eq_nil_iff]
    intro x hx
    simp only [decide_eq_true_eq]
    intro he
    rw [he] at hx
    exact h (List.mem_reverse.mp hx)
  rw [h2]
  rfl

theorem rstripSlashes_getLast?_ne (s : List Char) :
    rstripSlashes s = [] ∨ (rstripSlashes s).getLast? ≠ some '/' := by
  unfold rstripSlashes
  cases hd : s.reverse.dropWhile (fun c => decide (c = '/')) with
  | nil => exact Or.inl rfl
  | cons a t =>
      right
      rw [List.getLast?_reverse, List.head?_cons]
      intro hc
      have hpa := head_dropWhile_false _ _ _ _ hd
      simp only [Option.some.injEq] at hc
      rw [hc] at hpa
      simp at hpa

theorem getLast?_append_cons (A : List Char) (x : Char) (B : List Char)
    (hB : B ≠ []) : (A ++ x :: B).getLast? = B.getLast? := by
  obtain ⟨b, hb⟩ := Option.isSome_iff_exists.mp (List.getLast?_isSome.mpr hB)
  have h1 : A ++ x :: B = (A ++ [x]) ++ B := by simp
  rw [h1, List.getLast?_append, hb]
  rfl

theorem pyEndsWith_slash_false (s : List Char) (h : s.getLast? ≠ some '/') :
    pyEndsWith s ['/'] = false := by
  cases he : pyEndsWith s ['/']
  · rfl
  · exact absurd ((pyEndsWith_single s '/').mp he) h

theorem pyEndsWith_slash_true (s : List Char) (h : s.getLast? = some '/') :
    pyEndsWith s ['/'] = true := (pyEndsWith_single s '/').mpr h

theorem pyStartsWith_slash_true (s : List Char) (h : s.head? = some '/') :
    pyStartsWith s ['/'] = true := (pyStartsWith_single s '/').mpr h

theorem pyDirname_append_no_slash (A rest : List Char) (hA : A ≠ [])
    (hAany : A.any (fun c => c ≠ '/') = true) (hAl : A.getLast? ≠ some '/')
    (h : '/' ∉ rest) :
    pyDirname (A ++ '/' :: rest) = A := by
  unfold pyDirname
  rw [headPart_append_no_slash A rest h]
  have hne : A ++ ['/'] ≠ [] := by simp
  have hany : (A ++ ['/']).any (fun c => decide (c ≠ '/')) = true := by
    rw [List.any_append, hAany]
    rfl
  rw [if_pos ⟨hne, hany⟩, rstripSlashes_append_slash,
    rstripSlashes_no_slash_end A hAl]

theorem pyDirname_of_mem (rest : List Char) (c0 : Char)
    (hh : rest.head? = some c0) (hc0 : c0 ≠ '/') (h : '/' ∈ rest) :
    pyDirname rest = rstripSlashes (headPart rest) ∧
    (pyDirname rest).head? = some c0 ∧ pyDirname rest ≠ [] ∧
    (pyDirname rest).getLast? ≠ some '/' := by
  have hHRne : headPart rest ≠ [] := headPart_ne_nil_of_mem rest h
  have hpre : headPart rest <+: rest := reverse_dropWhile_prefix _ rest
  have hHRhead : (headPart rest).head? = some c0 := by
    rw [← prefix_head? hpre hHRne]
    exact hh
  have hc0mem : c0 ∈ headPart rest := by
    cases hHP : headPart rest with
    | nil => exact absurd hHP hHRne
    | cons x t =>
        rw [hHP, List.head?_cons, Option.some.injEq] at hHRhead
        rw [hHRhead]
        exact List.mem_cons_self c0 t
  have hHRany : (headPart rest).any (fun x => decide (x ≠ '/')) = true := by
    rw [List.any_eq_true]
    exact ⟨c0, hc0mem, by simpa using hc0⟩
  have hmain : pyDirname rest = rstripSlashes (headPart rest) := by
    unfold pyDirname
    rw [if_pos ⟨hHRne, hHRany⟩]
  have hDne : rstripSlashes (headPart rest) ≠ [] :=
    rstripSlashes_ne_nil (headPart rest) c0 hHRhead hc0
  have hDpre : rstripSlashes (headPart rest) <+: headPart rest :=
    reverse_dropWhile_prefix _ (headPart rest)
  have hDhead : (rstripSlashes (headPart rest)).head? = some c0 := by
    rw [← prefix_head? hDpre hDne]
    exact hHRhead
  have hDlast : (rstripSlashes (headPart rest)).getLast? ≠ some '/' := by
    rcases rstripSlashes_getLast?_ne (headPart rest) with h1 | h1
    · exact absurd h1 hDne
    · exact h1
  rw [hmain]
  exact ⟨rfl, hDhead, hDne, hDlast⟩

theorem pyDirname_append_slash (A rest : List Char) (hA : A ≠ [])
    (hAany : A.any (fun c => c ≠ '/') = true) (c0 : Char)
    (hrh : rest.head? = some c0) (hc0 : c0 ≠ '/') (h : '/' ∈ rest) :
    pyDirname (A ++ '/' :: rest) = A ++ '/' :: pyDirname rest := by
  obtain ⟨hD, _, hDne, _⟩ := pyDirname_of_mem rest c0 hrh hc0 h
  have hHR := headPart_append_slash A rest h
  rw [hD]
  unfold pyDirname
  rw [hHR]
  have hne1 : A ++ '/' :: headPart rest ≠ [] := by simp
  have hany1 : (A ++ '/' :: headPart rest).any (fun x => decide (x ≠ '/')) = true := by
    rw [List.any_append, hAany]
    rfl
  rw [if_pos ⟨hne1, hany1⟩]
  have hHRne : headPart rest ≠ [] := headPart_ne_nil_of_mem rest h
  have hpre : headPart rest <+: rest := reverse_dropWhile_prefix _ rest
  have hHRhead : (headPart rest).head? = some c0 := by
    rw [← prefix_head? hpre hHRne]
    exact hrh
  have hstrip : rstripSlashes (headPart rest) ≠ [] :=
    rstripSlashes_ne_nil (headPart rest) c0 hHRhead hc0
  have hassoc : A ++ '/' :: headPart rest = (A ++ ['/']) ++ headPart rest := by
    simp
  rw [hassoc, rstripSlashes_append_of_ne _ _ hstrip]
  simp

/-! ## C5: trash-enabled `delete` (`client.py:472-548`, `client.py:1328-1329`)

RPC outcomes are oracles: `existsQ` answers the `self.test(trash_path,
exists=True)` probes, `renameOk` the `.result` of a rename RPC for a given
destination, `deleteOk` the `.result` of a delete RPC, and `ts` gives the
string `str(int(time.time() * 1000))` read at the `i`-th clock sample.  The
unbounded `while self.test(...)` collision loop gets an explicit `fuel`
bound; the claims are settled at inputs where the loop stops within the
fuel. -/

/-- `Client._join_user_path` (`client.py:1328-1329`):
`os.path.join("/user", get_current_username(), path)`. -/
def join_user_path (user p : List Char) : List Char :=
  pathJoin (pathJoin ("/user".toList) user) p

/-- `self.trash` as set in `Client.__init__` (`client.py:111`). -/
def clientTrash (user : List Char) : List Char :=
  join_user_path user (".Trash".toList)

/-- `Client.__should_move_to_trash` (`client.py:540-548`). -/
def should_move_to_trash (use_trash : Bool) (trash path : List Char) :
    Except PyErr Bool :=
  if ¬ use_trash then .ok false
  else if pyStartsWith path trash then .ok false
  else if pyStartsWith (pyDirname trash) path then
    .error (.exception ("Cannot move to the trash, as it contains the trash".toList))
  else .ok true

/-- `Client._handle_rename` (`client.py:394-405`): a relative destination is
joined onto the user home, the destination is normalized, and one rename RPC
is issued whose `.result` lands in the record. -/
def handle_rename (user : List Char) (renameOk : List Char → Bool)
    (path dst : List Char) : List RpcAction × ResultRec :=
  let dst1 := if pyStartsWith dst ['/'] then dst else join_user_path user dst
  let dst2 := normalize_path dst1
  ([.renameA path dst2], { path := path, result := renameOk dst2 })

/-- The collision loop `while self.test(trash_path, exists=True): trash_path
= original_path + timestamp` (`client.py:522-526`), with fuel.  Returns the
chosen path and the next clock-sample index. -/
def resolve_trash_path (existsQ : List Char → Bool) (ts : Nat → List Char) :
    Nat → List Char → List Char → Nat → List Char × Nat
  | 0, _, current, i => (current, i)
  | fuel + 1, original, current, i =>
      if existsQ current then
        resolve_trash_path existsQ ts fuel original (original ++ ts i) (i + 1)
      else (current, i)

/-- One iteration of the `for i in range(0, 2)` retry loop
(`client.py:519-531`): `mkdir -p` the base trash directory with mode
`0o700`, resolve a collision-free name, rename; on a successful rename
return the record with the `Moved` message, otherwise hand the mutated
`trash_path` and clock index to the next iteration. -/
def trash_one_attempt (user : List Char) (existsQ : List Char → Bool)
    (ts : Nat → List Char) (renameOk : List Char → Bool)
    (path base : List Char) (fuel : Nat) (trashPath : List Char) (i : Nat) :
    (List RpcAction × ResultRec) ⊕ (List Char × Nat × List RpcAction) :=
  let rc := resolve_trash_path existsQ ts fuel trashPath trashPath i
  let hr := handle_rename user renameOk path rc.1
  let acts := [RpcAction.mkdirA base true 0o700] ++ hr.1
  if hr.2.result then
    .inl (acts, { hr.2 with
      message := some (". Moved ".toList ++ path ++ " to ".toList ++ rc.1) })
  else .inr (rc.1, rc.2, acts)

/-- The two-round retry loop of `_handle_delete` (`client.py:519-532`): the
body runs at most twice; if neither rename succeeds,
`Exception("Failed to move to trash ...")` is raised. -/
def trash_move (user : List Char) (existsQ : List Char → Bool)
    (ts : Nat → List Char) (renameOk : List Char → Bool)
    (path base : List Char) (fuel : Nat) (trashPath : List Char) :
    Except PyErr (List RpcAction × ResultRec) :=
  match trash_one_attempt user existsQ ts renameOk path base fuel trashPath 0 with
  | .inl r => .ok r
  | .inr (tp1, i1, acts1) =>
      match trash_one_attempt user existsQ ts renameOk path base fuel tp1 i1 with
      | .inl r => .ok (acts1 ++ r.1, r.2)
      | .inr _ => .error (.exception ("Failed to move to trash".toList))

/-- `Client._handle_delete` (`client.py:496-538`): raise `DirectoryException`
for a directory without `recurse`; consult the trash policy; on the trash
path compute `trash/Current/<path-without-leading-slash>` and its base
directory (both with a trailing slash stripped), and run the rename-to-trash
loop; otherwise issue a single delete RPC. -/
def handle_delete (use_trash : Bool) (user : List Char)
    (existsQ : List Char → Bool) (ts : Nat → List Char)
    (renameOk : List Char → Bool) (deleteOk : Bool) (fuel : Nat)
    (path : List Char) (isDirNode recurse : Bool) :
    Except PyErr (List RpcAction × ResultRec) :=
  if isDirNode ∧ ¬ recurse then
    .error (.directoryException ("rm: Is a directory".toList))
  else
    match should_move_to_trash use_trash (clientTrash user) path with
    | .error e => .error e
    | .ok true =>
        let suffixPath := if pyEndsWith path ['/'] then (path.drop 1).dropLast
                          else path.drop 1
        let trashPath0 := pathJoin (pathJoin (clientTrash user) ("Current".toList))
          suffixPath
        let trashPath := if pyEndsWith trashPath0 ['/'] then trashPath0.dropLast
                         else trashPath0
        let base0 := pathJoin (pathJoin (clientTrash user) ("Current".toList))
          (pyDirname suffixPath)
        let base := if pyEndsWith base0 ['/'] then base0.dropLast else base0
        trash_move user existsQ ts renameOk path base fuel trashPath
    | .ok false =>
        .ok ([.deleteA path recurse], { path := path, result := deleteOk })

/-- The trash destination the claim names:
`<trash>/Current/<path-without-leading-slash>` for a path `/rest`. -/
def trashDest (user rest : List Char) : List Char :=
  "/user/".toList ++ user ++ "/.Trash/Current/".toList ++ rest

/-- Reduction of `_handle_delete` on the trash path: under the trash-policy
conditions of the claim, the handler computes exactly the destination
`<trash>/Current/<path-without-leading-slash>`, the base directory
`dirname(destination)`, and runs the rename-to-trash loop on them.  The path
is `'/' :: rest` with `rest` a normalized relative part (nonempty, no
leading or trailing slash); the user name is nonempty with no leading or
trailing slash. -/
theorem handle_delete_to_trash_move (user rest : List Char) (c0 lc : Char)
    (existsQ : List Char → Bool) (ts : Nat → List Char)
    (renameOk : List Char → Bool) (deleteOk : Bool)
    (isDirNode recurse : Bool) (fuel : Nat)
    (huser_ne : user ≠ []) (huser_h : user.head? ≠ some '/')
    (huser_l : user.getLast? ≠ some '/')
    (hrest_h : rest.head? = some c0) (hc0 : c0 ≠ '/')
    (hrest_l : rest.getLast? = some lc) (hlc : lc ≠ '/')
    (hok : isDirNode = false ∨ recurse = true)
    (hnotin : pyStartsWith ('/' :: rest) (clientTrash user) = false)
    (hnotcont : pyStartsWith (pyDirname (clientTrash user)) ('/' :: rest) = false) :
    handle_delete true user existsQ ts renameOk deleteOk fuel ('/' :: rest)
        isDirNode recurse =
      trash_move user existsQ ts renameOk ('/' :: rest)
        (pyDirname (trashDest user rest)) fuel (trashDest user rest) := by
  have hrest_ne : rest ≠ [] := by
    intro h
    rw [h] at hrest_h
    simp at hrest_h
  -- The trash root as an explicit string.
  have htrash : clientTrash user =
      ("/user".toList ++ '/' :: user) ++ '/' :: ".Trash".toList := by
    unfold clientTrash join_user_path
    rw [pathJoin_sep ("/user".toList) user (by decide) (by decide) huser_h]
    have hlast : ("/user".toList ++ '/' :: user).getLast? ≠ some '/' := by
      rw [getLast?_append_cons _ '/' user huser_ne]
      exact huser_l
    rw [pathJoin_sep _ _ (by simp) hlast (by decide)]
  have hT_ne : clientTrash user ≠ [] := by
    rw [htrash]
    simp
  have hT_last : (clientTrash user).getLast? = some 'h' := by
    rw [htrash, getLast?_append_cons _ '/' (".Trash".toList) (by decide)]
    decide
  have hT_last_ne : (clientTrash user).getLast? ≠ some '/' := by
    rw [hT_last]
    decide
  -- trash/Current
  have hA0 : pathJoin (clientTrash user) ("Current".toList) =
      clientTrash user ++ '/' :: "Current".toList :=
    pathJoin_sep _ _ hT_ne hT_last_ne (by decide)
  set A0 := clientTrash user ++ '/' :: "Current".toList with hA0def
  have hA0_ne : A0 ≠ [] := by
    rw [hA0def]
    simp
  have hA0_last : A0.getLast? = some 't' := by
    rw [hA0def, getLast?_append_cons _ '/' ("Current".toList) (by decide)]
    decide
  have hA0_last_ne : A0.getLast? ≠ some '/' := by
    rw [hA0_last]
    decide
  have hA0_any : A0.any (fun c => decide (c ≠ '/')) = true := by
    rw [List.any_eq_true]
    refine ⟨'C', ?_, by decide⟩
    rw [hA0def]
    exact List.mem_append_right _ (List.mem_cons_of_mem '/' (by decide))
  -- The full destination.
  have hrest_h_ne : rest.head? ≠ some '/' := by
    rw [hrest_h]
    intro h
    exact hc0 (Option.some.inj h)
  have hTP : pathJoin A0 rest = A0 ++ '/' :: rest :=
    pathJoin_sep _ _ hA0_ne hA0_last_ne hrest_h_ne
  have hdest_flat : A0 ++ '/' :: rest = trashDest user rest := by
    rw [hA0def, htrash]
    have e1 : "/user/".toList = "/user".toList ++ ['/'] := rfl
    have e2 : "/.Trash/Current/".toList =
        ('/' :: ".Trash".toList) ++ ('/' :: "Current".toList) ++ ['/'] := rfl
    unfold trashDest
    rw [e1, e2]
    simp
  have hdest_last : (A0 ++ '/' :: rest).getLast? = some lc := by
    rw [getLast?_append_cons _ '/' rest hrest_ne]
    exact hrest_l
  have hdest_ew : pyEndsWith (A0 ++ '/' :: rest) ['/'] = false := by
    apply pyEndsWith_slash_false
    rw [hdest_last]
    intro h
    exact hlc (Option.some.inj h)
  -- The path itself does not end in a slash.
  have hpath_ew : pyEndsWith ('/' :: rest) ['/'] = false := by
    apply pyEndsWith_slash_false
    have h1 : ('/' :: rest) = [] ++ '/' :: rest := rfl
    rw [h1, getLast?_append_cons [] '/' rest hrest_ne, hrest_l]
    intro h
    exact hlc (Option.some.inj h)
  -- The base directory is the dirname of the destination.
  have hbase : (if pyEndsWith (pathJoin A0 (pyDirname rest)) ['/'] then
        (pathJoin A0 (pyDirname rest)).dropLast
      else pathJoin A0 (pyDirname rest)) = pyDirname (A0 ++ '/' :: rest) := by
    by_cases hsl : '/' ∈ rest
    · obtain ⟨_, hd_head, hd_ne, hd_last⟩ := pyDirname_of_mem rest c0 hrest_h hc0 hsl
      have hd_head_ne : (pyDirname rest).head? ≠ some '/' := by
        rw [hd_head]
        intro h
        exact hc0 (Option.some.inj h)
      have hb0 : pathJoin A0 (pyDirname rest) = A0 ++ '/' :: pyDirname rest :=
        pathJoin_sep _ _ hA0_ne hA0_last_ne hd_head_ne
      have hb0_ew : pyEndsWith (A0 ++ '/' :: pyDirname rest) ['/'] = false := by
        apply pyEndsWith_slash_false
        rw [getLast?_append_cons _ '/' (pyDirname rest) hd_ne]
        exact hd_last
      rw [hb0, hb0_ew, if_neg (by simp)]
      rw [pyDirname_append_slash A0 rest hA0_ne hA0_any c0 hrest_h hc0 hsl]
    · have hd0 : pyDirname rest = [] := by
        unfold pyDirname
        rw [headPart_eq_nil_of_not_mem rest hsl]
        simp
      have hb0 : pathJoin A0 (pyDirname rest) = A0 ++ ['/'] := by
        rw [hd0]
        have := pathJoin_sep A0 [] hA0_ne hA0_last_ne (by simp)
        simpa using this
      have hb0_ew : pyEndsWith (A0 ++ ['/']) ['/'] = true := by
        apply pyEndsWith_slash_true
        rw [List.getLast?_append]
        rfl
      rw [hb0, hb0_ew, if_pos rfl]
      rw [pyDirname_append_no_slash A0 rest hA0_ne hA0_any hA0_last_ne hsl]
      exact List.dropLast_concat
  -- The trash policy check passes.
  have hsm : should_move_to_trash true (clientTrash user) ('/' :: rest) = .ok true := by
    unfold should_move_to_trash
    rw [hnotin, hnotcont]
    simp
  -- Assemble.
  have hcond : ¬ (isDirNode = true ∧ ¬ (recurse = true)) := by
    rcases hok with h | h
    · rintro ⟨h1, _⟩
      rw [h] at h1
      exact Bool.false_ne_true h1
    · rintro ⟨_, h2⟩
      exact h2 h
  unfold handle_delete
  rw [if_neg hcond, hsm]
  simp only [hpath_ew, Bool.false_eq_true, if_false]
  have hdrop : ('/' :: rest).drop 1 = rest := rfl
  rw [hdrop, hA0, hTP, hdest_ew]
  simp only [Bool.false_eq_true, if_false]
  rw [hbase, hdest_flat]

/-- Every iteration of the rename-to-trash loop performs exactly one mkdir
and one rename, whatever the oracles answer. -/
theorem trash_one_attempt_shape (u : List Char) (e : List Char → Bool)
    (t : Nat → List Char) (r : List Char → Bool) (p b : List Char)
    (fl : Nat) (tp : List Char) (i : Nat) :
    (∃ d rec2, trash_one_attempt u e t r p b fl tp i =
      .inl ([RpcAction.mkdirA b true 0o700, RpcAction.renameA p d], rec2)) ∨
    (∃ tp2 i2 d, trash_one_attempt u e t r p b fl tp i =
      .inr (tp2, i2, [RpcAction.mkdirA b true 0o700, RpcAction.renameA p d])) := by
  unfold trash_one_attempt handle_rename
  dsimp only
  split
  · split
    · exact Or.inl ⟨_, _, rfl⟩
    · exact Or.inr ⟨_, _, _, rfl⟩
  · split
    · exact Or.inl ⟨_, _, rfl⟩
    · exact Or.inr ⟨_, _, _, rfl⟩

/-- A successful rename-to-trash flow issues one or two mkdir/rename pairs
and nothing else — in particular no delete RPC. -/
theorem trash_move_ok_acts (u : List Char) (e : List Char → Bool)
    (t : Nat → List Char) (r : List Char → Bool) (p b : List Char)
    (fl : Nat) (tp : List Char) (acts : List RpcAction) (rec2 : ResultRec)
    (h : trash_move u e t r p b fl tp = .ok (acts, rec2)) :
    (∃ d, acts = [RpcAction.mkdirA b true 0o700, RpcAction.renameA p d]) ∨
    (∃ d1 d2, acts = [RpcAction.mkdirA b true 0o700, RpcAction.renameA p d1,
      RpcAction.mkdirA b true 0o700, RpcAction.renameA p d2]) := by
  unfold trash_move at h
  rcases trash_one_attempt_shape u e t r p b fl tp 0 with ⟨d, rec0, h1⟩ | ⟨tp2, i2, d, h1⟩
  · rw [h1] at h
    simp only [Except.ok.injEq, Prod.mk.injEq] at h
    exact Or.inl ⟨d, h.1.symm⟩
  · rw [h1] at h
    dsimp only at h
    rcases trash_one_attempt_shape u e t r p b fl tp2 i2 with ⟨d2, rec0, h2⟩ | ⟨tp3, i3, d2, h2⟩
    · rw [h2] at h
      simp only [Except.ok.injEq, Prod.mk.injEq] at h
      refine Or.inr ⟨d, d2, ?_⟩
      rw [← h.1]
      rfl
    · rw [h2] at h
      simp at h

/-- C5: for a trash-enabled client deleting `'/' :: rest` (with the path and
user name in the normalized shapes the client produces, the path outside the
trash and the trash not under the path):

1. when the destination `<trash>/Current/<rest>` does not exist, the handler
   issues exactly a `mkdir -p` of the destination's dirname (mode `0o700`)
   followed by a rename of the path to the destination, and returns the
   success record — no delete RPC;
2. when the destination exists but the timestamp-suffixed name is free, the
   rename goes to the destination with the unix-millisecond timestamp
   appended;
3. whatever the oracles answer, a successful delete through the trash never
   issues a delete RPC.

The hypotheses on `normalize_path` record that the computed destination is
already in normal form (the client normalized `path` before the handler
ran), and `renameOk _ = true` is the server accepting the rename. -/
theorem delete_moves_to_trash (user rest : List Char) (c0 lc : Char)
    (existsQ : List Char → Bool) (ts : Nat → List Char)
    (renameOk : List Char → Bool) (deleteOk : Bool)
    (isDirNode recurse : Bool) (f : Nat)
    (huser_ne : user ≠ []) (huser_h : user.head? ≠ some '/')
    (huser_l : user.getLast? ≠ some '/')
    (hrest_h : rest.head? = some c0) (hc0 : c0 ≠ '/')
    (hrest_l : rest.getLast? = some lc) (hlc : lc ≠ '/')
    (hok : isDirNode = false ∨ recurse = true)
    (hnotin : pyStartsWith ('/' :: rest) (clientTrash user) = false)
    (hnotcont : pyStartsWith (pyDirname (clientTrash user)) ('/' :: rest) = false) :
    (existsQ (trashDest user rest) = false →
      normalize_path (trashDest user rest) = trashDest user rest →
      renameOk (trashDest user rest) = true →
      handle_delete true user existsQ ts renameOk deleteOk (f + 1) ('/' :: rest)
          isDirNode recurse =
        .ok ([.mkdirA (pyDirname (trashDest user rest)) true 0o700,
              .renameA ('/' :: rest) (trashDest user rest)],
             { path := '/' :: rest, result := true,
               message := some (". Moved ".toList ++ ('/' :: rest) ++ " to ".toList ++
                 trashDest user rest) })) ∧
    (existsQ (trashDest user rest) = true →
      existsQ (trashDest user rest ++ ts 0) = false →
      normalize_path (trashDest user rest ++ ts 0) = trashDest user rest ++ ts 0 →
      renameOk (trashDest user rest ++ ts 0) = true →
      handle_delete true user existsQ ts renameOk deleteOk (f + 2) ('/' :: rest)
          isDirNode recurse =
        .ok ([.mkdirA (pyDirname (trashDest user rest)) true 0o700,
              .renameA ('/' :: rest) (trashDest user rest ++ ts 0)],
             { path := '/' :: rest, result := true,
               message := some (". Moved ".toList ++ ('/' :: rest) ++ " to ".toList ++
                 (trashDest user rest ++ ts 0)) })) ∧
    (∀ fl acts rec2,
      handle_delete true user existsQ ts renameOk deleteOk fl ('/' :: rest)
          isDirNode recurse = .ok (acts, rec2) →
      ∀ src rcv, RpcAction.deleteA src rcv ∉ acts) := by
  have hred : ∀ fl, handle_delete true user existsQ ts renameOk deleteOk fl
      ('/' :: rest) isDirNode recurse =
      trash_move user existsQ ts renameOk ('/' :: rest)
        (pyDirname (trashDest user rest)) fl (trashDest user rest) := by
    intro fl
    exact handle_delete_to_trash_move user rest c0 lc existsQ ts renameOk deleteOk
      isDirNode recurse fl huser_ne huser_h huser_l hrest_h hc0 hrest_l hlc hok
      hnotin hnotcont
  have hdest_head : (trashDest user rest).head? = some '/' := rfl
  refine ⟨?_, ?_, ?_⟩
  · intro hexA hnorm hren
    rw [hred (f + 1)]
    have hres : resolve_trash_path existsQ ts (f + 1) (trashDest user rest)
        (trashDest user rest) 0 = (trashDest user rest, 0) := by
      simp only [resolve_trash_path, hexA, Bool.false_eq_true, if_false]
    have hatt : trash_one_attempt user existsQ ts renameOk ('/' :: rest)
        (pyDirname (trashDest user rest)) (f + 1) (trashDest user rest) 0 =
        .inl ([.mkdirA (pyDirname (trashDest user rest)) true 0o700,
               .renameA ('/' :: rest) (trashDest user rest)],
              { path := '/' :: rest, result := true,
                message := some (". Moved ".toList ++ ('/' :: rest) ++ " to ".toList ++
                  trashDest user rest) }) := by
      unfold trash_one_attempt handle_rename
      rw [hres]
      dsimp only
      rw [pyStartsWith_slash_true _ hdest_head]
      simp only [if_true]
      rw [hnorm, hren]
      rfl
    unfold trash_move
    rw [hatt]
  · intro hexB1 hexB2 hnorm hren
    rw [hred (f + 2)]
    have hres : resolve_trash_path existsQ ts (f + 2) (trashDest user rest)
        (trashDest user rest) 0 = (trashDest user rest ++ ts 0, 1) := by
      have h1 : f + 2 = (f + 1) + 1 := rfl
      rw [h1]
      simp only [resolve_trash_path, hexB1, if_true, hexB2, Bool.false_eq_true,
        if_false]
    have hatt : trash_one_attempt user existsQ ts renameOk ('/' :: rest)
        (pyDirname (trashDest user rest)) (f + 2) (trashDest user rest) 0 =
        .inl ([.mkdirA (pyDirname (trashDest user rest)) true 0o700,
               .renameA ('/' :: rest) (trashDest user rest ++ ts 0)],
              { path := '/' :: rest, result := true,
                message := some (". Moved ".toList ++ ('/' :: rest) ++ " to ".toList ++
                  (trashDest user rest ++ ts 0)) }) := by
      unfold trash_one_attempt handle_rename
      rw [hres]
      dsimp only
      have hdest_head2 : (trashDest user rest ++ ts 0).head? = some '/' := by
        have h2 : trashDest user rest ++ ts 0 =
            '/' :: ("user/".toList ++ user ++ "/.Trash/Current/".toList ++ rest ++ ts 0) := by
          unfold trashDest
          simp
        rw [h2]
        rfl
      rw [pyStartsWith_slash_true _ hdest_head2]
      simp only [if_true]
      rw [hnorm, hren]
      rfl
    unfold trash_move
    rw [hatt]
  · intro fl acts rec2 hdel src rcv
    rw [hred fl] at hdel
    rcases trash_move_ok_acts _ _ _ _ _ _ _ _ _ _ hdel with ⟨d, hacts⟩ | ⟨d1, d2, hacts⟩
    · rw [hacts]
      simp
    · rw [hacts]
      simp

/-- C5 witness: user `w` deletes `/x` with trash enabled, the destination is
free and the server accepts the rename: exactly one `mkdir -p` of
`/user/w/.Trash/Current` and one rename of `/x` to
`/user/w/.Trash/Current/x` are issued. -/
theorem delete_moves_to_trash_witness :
    handle_delete true ("w".toList) (fun _ => false) (fun _ => "123".toList)
        (fun _ => true) true 1 ("/x".toList) false false =
      .ok ([.mkdirA ("/user/w/.Trash/Current".toList) true 0o700,
            .renameA ("/x".toList) ("/user/w/.Trash/Current/x".toList)],
           { path := "/x".toList, result := true,
             message := some (". Moved /x to /user/w/.Trash/Current/x".toList) }) := by
  have h := (delete_moves_to_trash ("w".toList) ("x".toList) 'x' 'x'
    (fun _ => false) (fun _ => "123".toList) (fun _ => true) true false false 0
    (by decide) (by decide) (by decide) (by decide) (by decide) (by decide)
    (by decide) (Or.inl rfl) (by decide) (by decide)).1 rfl (by decide) rfl
  exact h.trans (by rfl)

end Snakebite
